import Mathlib

/-!
Shallow embedding of the channel configuration-commitment engine
(`platform/fabric/core/generic/txconfig.go`) of fabric-smart-client.

The Go file's channel methods `ReloadConfigTransactions`, `CommitConfig`,
`Resources`, `commitConfig`, `applyBundle` and the helper
`capabilitiesSupported` are translated into pure Lean functions over an
explicit channel state.  The state store (Vault), whose implementation is
not part of the excerpted source, is modelled from the spec's contract
(§6): per-transaction status, query access, and transactional
read/write-set commit/discard.  The external fabric library operations
(`channelconfig.NewBundle`, the configtx validator) are abstract function
parameters collected in `Ext`.
-/

namespace TxConfig

/-- Go `[]byte`. -/
abbrev Bytes := List Nat

/-- Decimal digits of `n`, little-endian, with structural fuel
(`n` itself always suffices as fuel, see `formatUint`).  Mirrors the
arithmetic of `strconv.FormatUint(n, 10)`. -/
def digitsBase10 : Nat → Nat → List Nat
  | 0, _ => []
  | fuel + 1, n => if n = 0 then [] else (n % 10) :: digitsBase10 fuel (n / 10)

/-- Little-endian decimal digit list of `n`. -/
def natDigits (n : Nat) : List Nat := digitsBase10 n n

/-- Model of Go `strconv.FormatUint(n, 10)`: the decimal string of `n`. -/
def formatUint (n : Nat) : String :=
  if n = 0 then ("0") else String.mk (((natDigits n).map Nat.digitChar).reverse)

/-- Decoder used only to prove `formatUint` injective. -/
def undigits : List Nat → Nat
  | [] => 0
  | d :: rest => d + 10 * undigits rest

/-- Inverse of `formatUint`, used only to prove it injective. -/
def unformatUint (s : String) : Nat :=
  undigits ((s.data.map (fun c => c.toNat - 48)).reverse)

/-- The `common.Config` value as consumed here: the embedded `Sequence` field plus the
rest of the configuration tree, abstracted as an opaque payload tag. -/
structure Config where
  sequence : Nat
  payload : Nat
  deriving DecidableEq, Repr

/-- Result of `protoutil.UnmarshalEnvelope`: whether the two further decode
steps (`protoutil.UnmarshalPayload` on `env.Payload`,
`configtx.UnmarshalConfigEnvelope` on `payload.Data`) succeed, and the decoded
configuration when they do. -/
structure Envelope where
  payloadOk : Bool
  configOk : Bool
  config : Config
  deriving DecidableEq, Repr

/-- Raw envelope bytes as seen through `protoutil.UnmarshalEnvelope`:
either they unmarshal to an `Envelope` or they are garbage. -/
inductive StoredBytes where
  | env (e : Envelope)
  | garbage
  deriving DecidableEq, Repr

/-- A capability set; `Supported()` either passes or reports an error. -/
structure Capabilities where
  supportedErr : Option String
  deriving DecidableEq, Repr

/-- One ordering-service organization as read through
`org.Name()/org.MSPID()/org.MSP()/org.Endpoints()`. -/
structure OrdererOrg where
  name : String
  mspID : String
  tlsRootCerts : List Bytes
  tlsIntermediateCerts : List Bytes
  endpoints : List String
  deriving DecidableEq, Repr

/-- The `channelconfig.Orderer` as consumed here: its organizations. -/
structure OrdererConfig where
  organizations : List OrdererOrg
  deriving DecidableEq, Repr

/-- The `channelconfig.Bundle` (external fabric library), reduced to the fields
this code consumes: the validator's channel id, the configuration it was built
from, the optional application config with its capabilities, the channel-level
capabilities, and the optional orderer config. -/
structure Bundle where
  channelID : String
  config : Config
  applicationConfig : Option Capabilities
  channelCapabilities : Capabilities
  ordererConfig : Option OrdererConfig
  deriving DecidableEq, Repr

/-- The `driver` validation codes: `Valid`, `Unknown`, or any other value. -/
inductive VStatus where
  | valid
  | unknown
  | other (code : Nat)
  deriving DecidableEq, Repr

/-- One key/value entry of the state store. -/
structure KVEntry where
  ns : String
  key : String
  value : StoredBytes
  deriving DecidableEq, Repr

/-- An open read/write set: the writes staged for one transaction id. -/
structure PendingWrite where
  txid : String
  entries : List KVEntry
  deriving DecidableEq, Repr

/-- Modelled from the spec: the Vault (state store) implementation is not part
of the excerpted source; §6 gives its contract (`Status`, `GetState`,
`NewRWSet`/`SetState`, `CommitTX`, `DiscardTx`).  Statuses and key/value pairs
are association lists (newest first); `pending` holds open read/write sets;
`commitOK`/`discardOK` choose whether the underlying ledger commit/discard
succeed; `discardCalls` records every `DiscardTx` invocation. -/
structure Vault where
  statuses : List (String × VStatus)
  kv : List KVEntry
  pending : List PendingWrite
  commitOK : Bool
  discardOK : Bool
  discardCalls : List String
  deriving DecidableEq, Repr

def lookupStatus : List (String × VStatus) → String → VStatus
  | [], _ => .unknown
  | (t, s) :: rest, txid => if t = txid then s else lookupStatus rest txid

/-- Modelled from the spec: `Status(txID)`; a transaction never seen is
`Unknown`. -/
def Vault.statusOf (v : Vault) (txid : String) : VStatus :=
  lookupStatus v.statuses txid

def lookupKV : List KVEntry → String → String → Option StoredBytes
  | [], _, _ => none
  | e :: rest, ns, key =>
    if e.ns = ns ∧ e.key = key then some e.value else lookupKV rest ns key

/-- Modelled from the spec: `GetState(namespace, key)` of a query executor. -/
def Vault.getState (v : Vault) (ns key : String) : Option StoredBytes :=
  lookupKV v.kv ns key

/-- Modelled from the spec: `NewRWSet(txID)` opens an empty read/write set. -/
def Vault.newRWSet (v : Vault) (txid : String) : Vault :=
  { v with pending := ⟨txid, []⟩ :: v.pending }

def addPending : List PendingWrite → String → KVEntry → List PendingWrite
  | [], _, _ => []
  | p :: rest, txid, e =>
    if p.txid = txid then { p with entries := p.entries ++ [e] } :: rest
    else p :: addPending rest txid e

/-- Modelled from the spec: `SetState(namespace, key, bytes)` on the open
read/write set of `txid`. -/
def Vault.setState (v : Vault) (txid ns key : String) (value : StoredBytes) : Vault :=
  { v with pending := addPending v.pending txid ⟨ns, key, value⟩ }

def removePending (l : List PendingWrite) (txid : String) : List PendingWrite :=
  l.filter (fun p => p.txid ≠ txid)

def findPending : List PendingWrite → String → List KVEntry
  | [], _ => []
  | p :: rest, txid => if p.txid = txid then p.entries else findPending rest txid

/-- Modelled from the spec: `CommitTX(txID, blockNumber, position, metadata)`
atomically applies the staged writes of `txid` and marks it `Valid`; on
failure nothing is written.  The block number is position metadata this model
does not need to retain. -/
def Vault.commitTX (v : Vault) (txid : String) (_blockNumber : Nat) :
    Except String Vault :=
  if v.commitOK then
    .ok { v with
      kv := findPending v.pending txid ++ v.kv
      statuses := (txid, VStatus.valid) :: v.statuses
      pending := removePending v.pending txid }
  else
    .error ("ledger commit failed")

/-- Modelled from the spec: `DiscardTx(txID)` drops the staged writes of
`txid`; the call is recorded and may itself fail. -/
def Vault.discardTx (v : Vault) (txid : String) : Vault × Option String :=
  let v1 := { v with discardCalls := v.discardCalls ++ [txid] }
  if v.discardOK then
    ({ v1 with pending := removePending v1.pending txid }, none)
  else
    (v1, some ("discard failed"))

/-- Modelled from the spec: `grpc.ConnectionConfig`, reduced to the fields the
source sets (address, the fixed 10-second connection timeout, TLS enabled,
TLS root certificate bytes). -/
structure ConnectionConfig where
  address : String
  connectionTimeoutSeconds : Nat
  tlsEnabled : Bool
  tlsRootCertBytes : List Bytes
  deriving DecidableEq, Repr

/-- The channel state these methods act on: its name, the active resources
bundle (`c.resources`, nil before the first activation), its vault, and the
log of lists pushed to `c.network.setConfigOrderers`. -/
structure Channel where
  name : String
  resources : Option Bundle
  vault : Vault
  pushedOrderers : List (List ConnectionConfig)
  deriving DecidableEq, Repr

/-- The external fabric library operations this file consumes:
`channelconfig.NewBundle(channelID, config, factory.GetDefault())` and
`Validate(ctx)` of the predecessor bundle's configtx validator
(`ChannelID()` of that validator is the bundle's `channelID`). -/
structure Ext where
  newBundle : String → Config → Except String Bundle
  validate : Bundle → Config → Except String Unit

def channelConfigKey : String := "CHANNEL_CONFIG_ENV_BYTES"

def peerNamespace : String := "_configtx"

/-- The id `committer.ConfigTXPrefix + strconv.FormatUint(sequence, 10)`; the spec
(§6) fixes the literal tag to `"config-"`. -/
def configTxID (sequence : Nat) : String := "config-" ++ formatUint sequence

/-- Modelled from the spec: `rwset.CreateCompositeKey` is not part of the
excerpted source; §6 specifies the composite key as the fixed logical key name
concatenated with the string form of the sequence number. -/
def createCompositeKey (objectType : String) (attributes : List String) : String :=
  objectType ++ String.join attributes

/-- The sequence-derived composite key used by both reload and commit. -/
def configKey (sequence : Nat) : String :=
  createCompositeKey channelConfigKey [formatUint sequence]

/-- Method `Resources()` (txconfig.go:199-204): read the active bundle under the
resources read lock. -/
def Channel.Resources (c : Channel) : Option Bundle := c.resources

/-- Function `capabilitiesSupported` (txconfig.go:268-283). -/
def capabilitiesSupported (res : Bundle) : Except String Unit :=
  match res.applicationConfig with
  | none =>
    .error ("channel " ++ res.channelID ++
      " does not have application config so is incompatible")
  | some ac =>
    match ac.supportedErr with
    | some e => .error ("channel " ++ res.channelID ++ " incompatible: " ++ e)
    | none =>
      match res.channelCapabilities.supportedErr with
      | some e => .error ("channel " ++ res.channelID ++ " incompatible: " ++ e)
      | none => .ok ()

/-- The bundle construction block shared verbatim by `ReloadConfigTransactions`
(txconfig.go:78-101) and `CommitConfig` (txconfig.go:164-187): genesis path
when no bundle is active, successor path (validate against the predecessor's
validator, build, sanity-log, capability check) otherwise.  The two sites
differ only in the interpolated text of the wrapped error messages. -/
def buildBundle (ext : Ext) (c : Channel) (ctx : Config) : Except String Bundle :=
  match c.Resources with
  | none =>
    match ext.newBundle c.name ctx with
    | .error e => .error ("failed to build a new bundle: " ++ e)
    | .ok bundle => .ok bundle
  | some pred =>
    match ext.validate pred ctx with
    | .error e => .error ("failed to validate config transaction: " ++ e)
    | .ok _ =>
      match ext.newBundle pred.channelID ctx with
      | .error e => .error ("failed to create next bundle: " ++ e)
      | .ok bundle =>
        match capabilitiesSupported bundle with
        | .error e => .error e
        | .ok _ => .ok bundle

/-- The `newOrderers` connection-config list `applyBundle` builds from an
orderer config (txconfig.go:240-256): per organization, the concatenated TLS
root + intermediate certificates, one entry per endpoint with the fixed
10-second connection timeout and TLS enabled. -/
def newOrderersOf (orderers : OrdererConfig) : List ConnectionConfig :=
  (orderers.organizations.map (fun org =>
    let tlsRootCerts := org.tlsRootCerts ++ org.tlsIntermediateCerts
    org.endpoints.map (fun endpoint =>
      ({ address := endpoint
         connectionTimeoutSeconds := 10
         tlsEnabled := true
         tlsRootCertBytes := tlsRootCerts } : ConnectionConfig)))).flatten

/-- Method `applyBundle` (txconfig.go:230-266): under the resources write lock,
install the bundle, then flatten orderer organizations' endpoints with their
concatenated TLS root + intermediate certificates into connection configs and,
when non-empty, push them via `setConfigOrderers`. -/
def Channel.applyBundle (c : Channel) (bundle : Bundle) : Channel :=
  let c1 : Channel := { c with resources := some bundle }
  match bundle.ordererConfig with
  | some orderers =>
    let newOrderers := newOrderersOf orderers
    if newOrderers.length ≠ 0 then
      { c1 with pushedOrderers := c1.pushedOrderers ++ [newOrderers] }
    else c1
  | none => c1

/-- Method `commitConfig` (txconfig.go:206-228): open a read/write set for `txid`,
stage the raw envelope under the sequence-derived composite key in the
reserved namespace, commit it as ledger transaction `(txid, blockNumber, 0)`;
on commit failure attempt `DiscardTx` (its own failure is only logged) and
return the wrapped original commit error. -/
def Channel.commitConfig (c : Channel) (txid : String) (blockNumber seq : Nat)
    (envelope : StoredBytes) : Channel × Option String :=
  let v := c.vault.newRWSet txid
  let key := createCompositeKey channelConfigKey [formatUint seq]
  let v1 := v.setState txid peerNamespace key envelope
  match v1.commitTX txid blockNumber with
  | .ok v2 => ({ c with vault := v2 }, none)
  | .error e =>
    let d := v1.discardTx txid
    ({ c with vault := d.fst }, some ("failed committing configtx rws: " ++ e))

/-- Method `CommitConfig` (txconfig.go:127-196): reject a nil envelope, decode it,
derive the transaction id from the configuration's embedded sequence number,
return success at once when that id is already `Valid`, proceed on `Unknown`,
fail on any other status; build the bundle (genesis or successor path),
persist via `commitConfig`, and only then activate via `applyBundle`. -/
def Channel.CommitConfig (ext : Ext) (c : Channel) (blockNumber : Nat)
    (raw : StoredBytes) (env : Option Envelope) : Channel × Option String :=
  match env with
  | none => (c, some ("channel config found nil"))
  | some e =>
    if e.payloadOk = false then
      (c, some ("cannot get payload from config transaction"))
    else if e.configOk = false then
      (c, some ("error unmarshalling config which passed initial validity checks"))
    else
      let ctx := e.config
      let txid := configTxID ctx.sequence
      match c.vault.statusOf txid with
      | .valid => (c, none)
      | .unknown =>
        (match buildBundle ext c ctx with
         | .error msg => (c, some msg)
         | .ok bundle =>
           match c.commitConfig txid blockNumber ctx.sequence raw with
           | (c2, none) => (c2.applyBundle bundle, none)
           | (c2, some msg) =>
             (c2, some ("failed committing configtx to the vault: " ++ msg)))
      | .other code =>
        (c, some ("invalid configtx status " ++ formatUint code))

/-- The body of the `ReloadConfigTransactions` loop (txconfig.go:46-115),
with explicit fuel standing for the unbounded `for`: look up the status of
`config-<sequence>`; on `Valid` read the stored envelope at the
sequence-derived key, decode it, build the bundle (genesis or successor path),
activate it, and continue at `sequence+1`; `Unknown` terminates without error;
any other status is fatal. -/
def reloadLoop (ext : Ext) : Channel → Nat → Nat → Channel × Option String
  | c, _, 0 => (c, some ("reload fuel exhausted"))
  | c, sequence, fuel + 1 =>
    let txID := configTxID sequence
    match c.vault.statusOf txID with
    | .valid =>
      match c.vault.getState peerNamespace (configKey sequence) with
      | none => (c, some ("cannot get payload from config transaction " ++ txID))
      | some sb =>
        match sb with
        | .garbage =>
          (c, some ("cannot get payload from config transaction " ++ txID))
        | .env e =>
          if e.payloadOk = false then
            (c, some ("cannot get payload from config transaction " ++ txID))
          else if e.configOk = false then
            (c, some ("error unmarshalling config which passed initial validity checks "
              ++ txID))
          else
            match buildBundle ext c e.config with
            | .error msg => (c, some msg)
            | .ok bundle => reloadLoop ext (c.applyBundle bundle) (sequence + 1) fuel
    | .unknown => (c, none)
    | .other code => (c, some ("invalid configtx status " ++ formatUint code))

/-- Method `ReloadConfigTransactions` (txconfig.go:34-124): replay the persisted
configuration transactions from sequence 1 until the first `Unknown` status.
`fuel` bounds the number of loop iterations; any fuel larger than the number
of persisted configurations yields the loop's real result. -/
def Channel.ReloadConfigTransactions (ext : Ext) (c : Channel) (fuel : Nat) :
    Channel × Option String :=
  reloadLoop ext c 1 fuel

/-- Variant of `CommitConfig` interrupted by a simulated crash after successful
persistence (txconfig.go:189) and before bundle activation (txconfig.go:193):
identical to `Channel.CommitConfig` except that on success the call stops
before `applyBundle`. -/
def Channel.CommitConfigCrashBeforeApply (ext : Ext) (c : Channel)
    (blockNumber : Nat) (raw : StoredBytes) (env : Option Envelope) :
    Channel × Option String :=
  match env with
  | none => (c, some ("channel config found nil"))
  | some e =>
    if e.payloadOk = false then
      (c, some ("cannot get payload from config transaction"))
    else if e.configOk = false then
      (c, some ("error unmarshalling config which passed initial validity checks"))
    else
      let ctx := e.config
      let txid := configTxID ctx.sequence
      match c.vault.statusOf txid with
      | .valid => (c, none)
      | .unknown =>
        (match buildBundle ext c ctx with
         | .error msg => (c, some msg)
         | .ok _ =>
           match c.commitConfig txid blockNumber ctx.sequence raw with
           | (c2, none) => (c2, none)
           | (c2, some msg) =>
             (c2, some ("failed committing configtx to the vault: " ++ msg)))
      | .other code =>
        (c, some ("invalid configtx status " ++ formatUint code))

/-- A well-formed envelope carrying configuration `cfg`: both decode steps
succeed on it. -/
def mkEnv (cfg : Config) : Envelope := ⟨true, true, cfg⟩

/-- Runs `n` sequential live deliveries: `CommitConfig` on each configuration in
turn, the raw persisted bytes being the marshalled form of the very envelope
that is delivered; stops at the first error. -/
def commitMany (ext : Ext) : Channel → List Config → Channel × Option String
  | c, [] => (c, none)
  | c, cfg :: rest =>
    match Channel.CommitConfig ext c 0 (.env (mkEnv cfg)) (some (mkEnv cfg)) with
    | (c1, none) => commitMany ext c1 rest
    | (c1, some e) => (c1, some e)

/-- A state store with no transactions; `commitOK`/`discardOK` choose the
behaviour of the underlying ledger commit/discard. -/
def emptyVault (commitOK discardOK : Bool) : Vault :=
  ⟨[], [], [], commitOK, discardOK, []⟩

/-- A channel as constructed at startup: no active bundle, nothing pushed. -/
def mkChannel (name : String) (v : Vault) : Channel := ⟨name, none, v, []⟩

/-- Events of `applyBundle`, used to state its lock discipline. -/
inductive LockEvent where
  | lockResW
  | writeResources
  | pushOrderers (n : Nat)
  | noPush
  | unlockResW
  deriving DecidableEq, Repr

/-- The lock/action trace of `applyBundle` (txconfig.go:230-266), read off the
statement order of the source: `c.lock.Lock()`, then `c.resources = bundle`,
then the orderer inspection and (when the flattened list is non-empty) the
`setConfigOrderers` push — and only on return the `defer c.lock.Unlock()`
releases the resources write lock. -/
def applyBundleTrace (bundle : Bundle) : List LockEvent :=
  [LockEvent.lockResW, LockEvent.writeResources] ++
  (match bundle.ordererConfig with
   | some orderers =>
     let newOrderers := newOrderersOf orderers
     if newOrderers.length ≠ 0 then [LockEvent.pushOrderers newOrderers.length]
     else [LockEvent.noPush]
   | none => [LockEvent.noPush]) ++
  [LockEvent.unlockResW]

/-- Index of the first `setConfigOrderers` push in a trace. -/
def pushIdx (t : List LockEvent) : Option Nat :=
  t.findIdx? (fun e => match e with | .pushOrderers _ => true | _ => false)

/-- Index of the release of the resources write lock in a trace. -/
def unlockIdx (t : List LockEvent) : Option Nat :=
  t.findIdx? (fun e => match e with | .unlockResW => true | _ => false)

/-!  Theorems.  First the facts about the decimal formatter, then the claims. -/

theorem undigits_digitsBase10 : ∀ (fuel n : Nat), n ≤ fuel →
    undigits (digitsBase10 fuel n) = n := by
  intro fuel
  induction fuel with
  | zero => intro n hn; interval_cases n; simp [digitsBase10, undigits]
  | succ f ih =>
    intro n hn
    by_cases h0 : n = 0
    · simp [digitsBase10, h0, undigits]
    · have hdiv : n / 10 ≤ f := by
        have h1 : n / 10 < n := Nat.div_lt_self (Nat.pos_of_ne_zero h0) (by omega)
        omega
      simp only [digitsBase10, h0, if_false, undigits, ih _ hdiv]
      omega

theorem digitsBase10_lt : ∀ (fuel n : Nat), ∀ d ∈ digitsBase10 fuel n, d < 10 := by
  intro fuel
  induction fuel with
  | zero => intro n d hd; simp [digitsBase10] at hd
  | succ f ih =>
    intro n d hd
    by_cases h0 : n = 0
    · simp [digitsBase10, h0] at hd
    · simp only [digitsBase10, h0, if_false, List.mem_cons] at hd
      rcases hd with h | h
      · subst h; exact Nat.mod_lt _ (by omega)
      · exact ih _ _ h

theorem digitChar_decode : ∀ d : Fin 10, (Nat.digitChar d.val).toNat - 48 = d.val := by
  decide

theorem unformatUint_formatUint (n : Nat) : unformatUint (formatUint n) = n := by
  by_cases h0 : n = 0
  · subst h0; rfl
  · have hmap : (natDigits n).map (fun d => (Nat.digitChar d).toNat - 48)
        = (natDigits n).map id := by
      apply List.map_congr_left
      intro d hd
      have hlt : d < 10 := digitsBase10_lt n n d hd
      exact digitChar_decode ⟨d, hlt⟩
    rw [List.map_id] at hmap
    simp only [formatUint, h0, if_false, unformatUint, String.mk, List.map_reverse,
      List.reverse_reverse, List.map_map]
    have h2 : ((natDigits n).map (Nat.digitChar)).map (fun c => c.toNat - 48)
        = natDigits n := by
      rw [List.map_map]; exact hmap
    rw [List.map_map] at h2
    rw [h2]
    exact undigits_digitsBase10 n n (Nat.le_refl n)

theorem formatUint_injective : Function.Injective formatUint :=
  Function.LeftInverse.injective unformatUint_formatUint

theorem configTxID_injective : Function.Injective configTxID := by
  intro m n h
  apply formatUint_injective
  have hd := congrArg String.data h
  simp only [configTxID, String.data_append] at hd
  exact String.ext (List.append_cancel_left hd)

theorem configKey_injective : Function.Injective configKey := by
  intro m n h
  apply formatUint_injective
  have hd := congrArg String.data h
  simp only [configKey, createCompositeKey, String.join, List.foldl,
    String.data_append] at hd
  exact String.ext (List.append_cancel_left hd)

/-! Helper lemmas about the embedded operations. -/

theorem applyBundle_vault (c : Channel) (b : Bundle) :
    (c.applyBundle b).vault = c.vault := by
  unfold Channel.applyBundle
  cases b.ordererConfig with
  | none => rfl
  | some orderers => by_cases h : (newOrderersOf orderers).length ≠ 0 <;> simp [h]

theorem applyBundle_name (c : Channel) (b : Bundle) :
    (c.applyBundle b).name = c.name := by
  unfold Channel.applyBundle
  cases b.ordererConfig with
  | none => rfl
  | some orderers => by_cases h : (newOrderersOf orderers).length ≠ 0 <;> simp [h]

theorem applyBundle_resources (c : Channel) (b : Bundle) :
    (c.applyBundle b).resources = some b := by
  unfold Channel.applyBundle
  cases b.ordererConfig with
  | none => rfl
  | some orderers => by_cases h : (newOrderersOf orderers).length ≠ 0 <;> simp [h]

theorem commitConfig_resources (c : Channel) (txid : String) (bn seq : Nat)
    (envlp : StoredBytes) :
    (c.commitConfig txid bn seq envlp).fst.resources = c.resources := by
  simp only [Channel.commitConfig]
  cases h : (((c.vault.newRWSet txid).setState txid peerNamespace
      (createCompositeKey channelConfigKey [formatUint seq]) envlp).commitTX txid bn) <;>
    simp [h]

theorem commitConfig_name (c : Channel) (txid : String) (bn seq : Nat)
    (envlp : StoredBytes) :
    (c.commitConfig txid bn seq envlp).fst.name = c.name := by
  simp only [Channel.commitConfig]
  cases h : (((c.vault.newRWSet txid).setState txid peerNamespace
      (createCompositeKey channelConfigKey [formatUint seq]) envlp).commitTX txid bn) <;>
    simp [h]

theorem commitConfig_pushedOrderers (c : Channel) (txid : String) (bn seq : Nat)
    (envlp : StoredBytes) :
    (c.commitConfig txid bn seq envlp).fst.pushedOrderers = c.pushedOrderers := by
  simp only [Channel.commitConfig]
  cases h : (((c.vault.newRWSet txid).setState txid peerNamespace
      (createCompositeKey channelConfigKey [formatUint seq]) envlp).commitTX txid bn) <;>
    simp [h]

/-- On a failing ledger commit, `commitConfig` returns the discarded state and
the wrapped original commit error. -/
theorem commitConfig_fail_eq (c : Channel) (txid : String) (bn seq : Nat)
    (envlp : StoredBytes) (h : c.vault.commitOK = false) :
    c.commitConfig txid bn seq envlp =
      ({ c with vault := (((c.vault.newRWSet txid).setState txid peerNamespace
          (createCompositeKey channelConfigKey [formatUint seq]) envlp).discardTx
          txid).fst },
       some ("failed committing configtx rws: " ++ "ledger commit failed")) := by
  simp [Channel.commitConfig, Vault.commitTX, Vault.newRWSet, Vault.setState, h]

theorem discardTx_kv (v : Vault) (t : String) : (v.discardTx t).fst.kv = v.kv := by
  cases hv : v.discardOK <;> simp [Vault.discardTx, hv]

theorem discardTx_statuses (v : Vault) (t : String) :
    (v.discardTx t).fst.statuses = v.statuses := by
  cases hv : v.discardOK <;> simp [Vault.discardTx, hv]

theorem discardTx_discardCalls (v : Vault) (t : String) :
    (v.discardTx t).fst.discardCalls = v.discardCalls ++ [t] := by
  cases hv : v.discardOK <;> simp [Vault.discardTx, hv]

theorem discardTx_pending_ok (v : Vault) (t : String) (hv : v.discardOK = true) :
    (v.discardTx t).fst.pending = removePending v.pending t := by
  simp [Vault.discardTx, hv]

theorem findPending_removePending (l : List PendingWrite) (txid : String) :
    findPending (removePending l txid) txid = [] := by
  induction l with
  | nil => rfl
  | cons p rest ih =>
    by_cases h : p.txid = txid
    · simpa [removePending, List.filter, h] using ih
    · simpa [removePending, List.filter, h, findPending] using ih

/-! Concrete fixtures used by the witnesses. -/

/-- A bundle-construction environment that always succeeds and always
validates, producing bundles with supported capabilities and no orderer
config. -/
def extOK : Ext :=
  ⟨fun id cfg => .ok ⟨id, cfg, some ⟨none⟩, ⟨none⟩, none⟩, fun _ _ => .ok ()⟩

def cfg1 : Config := ⟨1, 0⟩

def cfg2 : Config := ⟨2, 0⟩

/-- A freshly constructed channel: empty store, no active bundle. -/
def chanInit : Channel := mkChannel ("testchannel") (emptyVault true true)

/-- A channel whose store already holds `config-1` as `Valid`. -/
def chanValid1 : Channel :=
  mkChannel ("testchannel") ⟨[(configTxID 1, VStatus.valid)], [], [], true, true, []⟩

/-- A bundle whose predecessor role is played in successor-path witnesses. -/
def bundlePred : Bundle := ⟨"testchannel", cfg1, some ⟨none⟩, ⟨none⟩, none⟩

/-- A channel with an active bundle and empty store. -/
def chanWithBundle : Channel :=
  ⟨"testchannel", some bundlePred, emptyVault true true, []⟩

/-- A channel with an active bundle whose underlying ledger commit fails. -/
def chanCommitFails : Channel :=
  ⟨"testchannel", some bundlePred, emptyVault false true, []⟩

/-- C2.  For every configuration transaction whose derived transaction id
(`"config-" + the configuration's embedded sequence number`) already has
status `Valid` in the state store, `CommitConfig` returns success immediately,
without writing anything to the store and without building or activating a new
bundle: the resulting channel state (store, bundle, pushed orderer lists) is
exactly the input state, for every environment. -/
theorem commitConfig_idempotent_on_valid (ext : Ext) (c : Channel) (bn : Nat)
    (raw : StoredBytes) (e : Envelope)
    (hp : e.payloadOk = true) (hc : e.configOk = true)
    (hv : c.vault.statusOf (configTxID e.config.sequence) = VStatus.valid) :
    Channel.CommitConfig ext c bn raw (some e) = (c, none) := by
  simp [Channel.CommitConfig, hp, hc, hv]

theorem commitConfig_idempotent_on_valid_witness :
    Channel.CommitConfig extOK chanValid1 5 StoredBytes.garbage (some (mkEnv cfg1))
      = (chanValid1, none) :=
  commitConfig_idempotent_on_valid extOK chanValid1 5 StoredBytes.garbage
    (mkEnv cfg1) rfl rfl (by decide)

/-- C3.  For every `CommitConfig` call that reaches the successor path (an
active predecessor bundle, status `Unknown` for the derived id) in which the
predecessor's validator rejects the configuration, or bundle construction
fails, or the capability check fails, the call returns an error and the
channel — in particular its active bundle `Resources()` — is exactly the one
from before the call. -/
theorem commit_no_activation_on_validation_failure (ext : Ext) (c : Channel)
    (bn : Nat) (raw : StoredBytes) (e : Envelope) (pred : Bundle) (msg : String)
    (hp : e.payloadOk = true) (hc : e.configOk = true)
    (hres : c.resources = some pred)
    (hstat : c.vault.statusOf (configTxID e.config.sequence) = VStatus.unknown)
    (hfail : ext.validate pred e.config = .error msg ∨
      (ext.validate pred e.config = .ok () ∧
        ext.newBundle pred.channelID e.config = .error msg) ∨
      (∃ b, ext.validate pred e.config = .ok () ∧
        ext.newBundle pred.channelID e.config = .ok b ∧
        capabilitiesSupported b = .error msg)) :
    ((Channel.CommitConfig ext c bn raw (some e)).snd).isSome = true ∧
    (Channel.CommitConfig ext c bn raw (some e)).fst = c := by
  have hbb : ∃ m, buildBundle ext c e.config = .error m := by
    rcases hfail with hval | ⟨hval, hnb⟩ | ⟨b, hval, hnb, hcap⟩
    · exact ⟨"failed to validate config transaction: " ++ msg,
        by simp [buildBundle, Channel.Resources, hres, hval]⟩
    · exact ⟨"failed to create next bundle: " ++ msg,
        by simp [buildBundle, Channel.Resources, hres, hval, hnb]⟩
    · exact ⟨msg, by simp [buildBundle, Channel.Resources, hres, hval, hnb, hcap]⟩
  rcases hbb with ⟨m, hm⟩
  simp [Channel.CommitConfig, hp, hc, hstat, hm]

theorem commit_no_activation_on_validation_failure_witness :
    ((Channel.CommitConfig ⟨extOK.newBundle, fun _ _ => .error ("rejected")⟩
        chanWithBundle 7 StoredBytes.garbage (some (mkEnv cfg2))).snd).isSome = true ∧
    (Channel.CommitConfig ⟨extOK.newBundle, fun _ _ => .error ("rejected")⟩
        chanWithBundle 7 StoredBytes.garbage (some (mkEnv cfg2))).fst
      = chanWithBundle :=
  commit_no_activation_on_validation_failure
    ⟨extOK.newBundle, fun _ _ => .error ("rejected")⟩ chanWithBundle 7
    StoredBytes.garbage (mkEnv cfg2) bundlePred ("rejected") rfl rfl rfl
    (by decide) (Or.inl rfl)

/-- C5.  For every `commitConfig` execution in which the ledger commit fails,
the returned error wraps the original `CommitTX` error (whether or not the
discard succeeds), a `DiscardTx` for the transaction id is attempted, the
committed store (key/value entries and statuses) is unchanged — no partially
written entry for the transaction id — and when the discard succeeds the
staged writes for the id are gone. -/
theorem rollback_on_persistence_failure (c : Channel) (txid : String)
    (bn seq : Nat) (envlp : StoredBytes) (h : c.vault.commitOK = false) :
    (c.commitConfig txid bn seq envlp).snd
        = some ("failed committing configtx rws: " ++ "ledger commit failed") ∧
    (c.commitConfig txid bn seq envlp).fst.vault.kv = c.vault.kv ∧
    (c.commitConfig txid bn seq envlp).fst.vault.statuses = c.vault.statuses ∧
    (c.commitConfig txid bn seq envlp).fst.vault.discardCalls
        = c.vault.discardCalls ++ [txid] ∧
    (c.vault.discardOK = true →
      findPending (c.commitConfig txid bn seq envlp).fst.vault.pending txid = []) := by
  rw [commitConfig_fail_eq c txid bn seq envlp h]
  refine ⟨rfl, ?_, ?_, ?_, ?_⟩
  · exact discardTx_kv _ txid
  · exact discardTx_statuses _ txid
  · exact discardTx_discardCalls _ txid
  · intro hd
    have hd2 : (((c.vault.newRWSet txid).setState txid peerNamespace
        (createCompositeKey channelConfigKey [formatUint seq]) envlp)).discardOK
        = true := hd
    simp only [discardTx_pending_ok _ txid hd2]
    exact findPending_removePending _ txid

theorem rollback_on_persistence_failure_witness :
    (chanCommitFails.commitConfig (configTxID 2) 7 2 StoredBytes.garbage).snd
        = some ("failed committing configtx rws: " ++ "ledger commit failed") ∧
    (chanCommitFails.commitConfig (configTxID 2) 7 2 StoredBytes.garbage).fst.vault.kv
        = chanCommitFails.vault.kv ∧
    (chanCommitFails.commitConfig (configTxID 2) 7 2 StoredBytes.garbage).fst.vault.statuses
        = chanCommitFails.vault.statuses ∧
    (chanCommitFails.commitConfig (configTxID 2) 7 2 StoredBytes.garbage).fst.vault.discardCalls
        = chanCommitFails.vault.discardCalls ++ [configTxID 2] ∧
    (chanCommitFails.vault.discardOK = true →
      findPending (chanCommitFails.commitConfig (configTxID 2) 7 2
        StoredBytes.garbage).fst.vault.pending (configTxID 2) = []) :=
  rollback_on_persistence_failure chanCommitFails (configTxID 2) 7 2
    StoredBytes.garbage rfl

/-- C7.  `applyBundle` on a bundle whose ordering configuration has exactly one
organization with two endpoints and one TLS root certificate (and no
intermediates) pushes exactly one connection-descriptor list, of length 2,
both entries carrying that certificate, TLS enabled and the fixed 10-second
timeout; a bundle with no ordering configuration, or whose organizations have
no endpoints, pushes nothing (and `applyBundle` cannot fail). -/
theorem endpoint_propagation :
    (∀ (c : Channel) (b : Bundle) (org : OrdererOrg) (cert : Bytes) (e1 e2 : String),
      b.ordererConfig = some ⟨[org]⟩ →
      org.endpoints = [e1, e2] → org.tlsRootCerts = [cert] →
      org.tlsIntermediateCerts = [] →
      (c.applyBundle b).pushedOrderers = c.pushedOrderers ++
        [[⟨e1, 10, true, [cert]⟩, ⟨e2, 10, true, [cert]⟩]]) ∧
    (∀ (c : Channel) (b : Bundle), b.ordererConfig = none →
      (c.applyBundle b).pushedOrderers = c.pushedOrderers) ∧
    (∀ (c : Channel) (b : Bundle) (oc : OrdererConfig), b.ordererConfig = some oc →
      (∀ org ∈ oc.organizations, org.endpoints = []) →
      (c.applyBundle b).pushedOrderers = c.pushedOrderers) := by
  refine ⟨?_, ?_, ?_⟩
  · intro c b org cert e1 e2 hoc hep hrc hic
    have hlist : newOrderersOf ⟨[org]⟩ =
        [⟨e1, 10, true, [cert]⟩, ⟨e2, 10, true, [cert]⟩] := by
      simp [newOrderersOf, hep, hrc, hic]
    simp [Channel.applyBundle, hoc, hlist]
  · intro c b hoc
    simp [Channel.applyBundle, hoc]
  · intro c b oc hoc hemp
    have hlist : newOrderersOf oc = [] := by
      unfold newOrderersOf
      rw [List.flatten_eq_nil_iff]
      intro l hl
      rcases List.mem_map.mp hl with ⟨org, horg, hback⟩
      rw [← hback, hemp org horg]
      rfl
    simp [Channel.applyBundle, hoc, hlist]

theorem endpoint_propagation_witness :
    (chanInit.applyBundle ⟨"testchannel", cfg1, some ⟨none⟩, ⟨none⟩,
        some ⟨[⟨"ordorg", "ordmsp", [[7]], [], ["orderer0:7050", "orderer1:7050"]⟩]⟩⟩).pushedOrderers
      = chanInit.pushedOrderers ++
        [[⟨"orderer0:7050", 10, true, [[7]]⟩, ⟨"orderer1:7050", 10, true, [[7]]⟩]] :=
  endpoint_propagation.1 chanInit
    ⟨"testchannel", cfg1, some ⟨none⟩, ⟨none⟩,
      some ⟨[⟨"ordorg", "ordmsp", [[7]], [], ["orderer0:7050", "orderer1:7050"]⟩]⟩⟩
    ⟨"ordorg", "ordmsp", [[7]], [], ["orderer0:7050", "orderer1:7050"]⟩
    [7] ("orderer0:7050") ("orderer1:7050") rfl rfl rfl rfl

/-- On a successful ledger commit, `commitConfig` prepends the staged entry to
the committed store, marks the transaction `Valid`, and drops its staged
writes. -/
theorem commitConfig_ok_eq (c : Channel) (txid : String) (bn seq : Nat)
    (envlp : StoredBytes) (h : c.vault.commitOK = true) :
    c.commitConfig txid bn seq envlp =
      ({ c with vault := { c.vault with
          kv := ⟨peerNamespace, createCompositeKey channelConfigKey [formatUint seq],
            envlp⟩ :: c.vault.kv
          statuses := (txid, VStatus.valid) :: c.vault.statuses
          pending := removePending c.vault.pending txid } }, none) := by
  simp [Channel.commitConfig, Vault.commitTX, Vault.newRWSet, Vault.setState,
    addPending, findPending, removePending, List.filter, h]

/-- C6.  Bundle construction branches on whether a bundle is already active:
with no active bundle (genesis) the validator is never consulted — the whole
`CommitConfig` call is unchanged under any replacement of the validator — and
the bundle comes from `NewBundle` on the channel's own name; with an active
predecessor, its validator runs before construction: when it rejects, the
result is the validation error no matter what the bundle builder would do. -/
theorem genesis_successor_branching :
    (∀ (ext : Ext) (v2 : Bundle → Config → Except String Unit) (c : Channel)
        (ctx : Config), c.Resources = none →
      buildBundle ⟨ext.newBundle, v2⟩ c ctx = buildBundle ext c ctx) ∧
    (∀ (ext : Ext) (v2 : Bundle → Config → Except String Unit) (c : Channel)
        (bn : Nat) (raw : StoredBytes) (env : Option Envelope), c.resources = none →
      Channel.CommitConfig ⟨ext.newBundle, v2⟩ c bn raw env
        = Channel.CommitConfig ext c bn raw env) ∧
    (∀ (ext : Ext) (nb : String → Config → Except String Bundle) (c : Channel)
        (ctx : Config) (pred : Bundle) (msg : String),
      c.Resources = some pred → ext.validate pred ctx = .error msg →
      buildBundle ⟨nb, ext.validate⟩ c ctx
        = .error ("failed to validate config transaction: " ++ msg)) := by
  have h1 : ∀ (ext : Ext) (v2 : Bundle → Config → Except String Unit) (c : Channel)
      (ctx : Config), c.Resources = none →
      buildBundle ⟨ext.newBundle, v2⟩ c ctx = buildBundle ext c ctx := by
    intro ext v2 c ctx h
    simp [buildBundle, h]
  refine ⟨h1, ?_, ?_⟩
  · intro ext v2 c bn raw env h
    cases env with
    | none => rfl
    | some e =>
      cases hp : e.payloadOk with
      | false => simp [Channel.CommitConfig, hp]
      | true =>
        cases hc : e.configOk with
        | false => simp [Channel.CommitConfig, hp, hc]
        | true =>
          have hb := h1 ext v2 c e.config (by simpa [Channel.Resources] using h)
          cases hst : c.vault.statusOf (configTxID e.config.sequence) with
          | valid => simp [Channel.CommitConfig, hp, hc, hst]
          | unknown => simp [Channel.CommitConfig, hp, hc, hst, hb]
          | other code => simp [Channel.CommitConfig, hp, hc, hst]
  · intro ext nb c ctx pred msg hres hval
    simp [buildBundle, hres, hval]

theorem genesis_successor_branching_witness :
    (Channel.CommitConfig ⟨extOK.newBundle, fun _ _ => .error ("rejected")⟩ chanInit 3
        (StoredBytes.env (mkEnv cfg1)) (some (mkEnv cfg1))
      = Channel.CommitConfig extOK chanInit 3
        (StoredBytes.env (mkEnv cfg1)) (some (mkEnv cfg1))) ∧
    (buildBundle ⟨fun _ _ => .error ("nobuild"), fun _ _ => .error ("rejected")⟩
        chanWithBundle cfg2
      = .error ("failed to validate config transaction: " ++ "rejected")) :=
  ⟨genesis_successor_branching.2.1 extOK (fun _ _ => .error ("rejected")) chanInit 3
      (StoredBytes.env (mkEnv cfg1)) (some (mkEnv cfg1)) rfl,
   genesis_successor_branching.2.2 ⟨extOK.newBundle, fun _ _ => .error ("rejected")⟩
      (fun _ _ => .error ("nobuild")) chanWithBundle cfg2 bundlePred ("rejected") rfl rfl⟩

/-- In every outcome of `CommitConfig`, the active bundle is either untouched
or replaced by some whole newly built bundle. -/
theorem commit_resources_old_or_new (ext : Ext) (c : Channel) (bn : Nat)
    (raw : StoredBytes) (env : Option Envelope) :
    (Channel.CommitConfig ext c bn raw env).fst.resources = c.resources ∨
    ∃ b, (Channel.CommitConfig ext c bn raw env).fst.resources = some b := by
  cases env with
  | none => exact Or.inl rfl
  | some e =>
    cases hp : e.payloadOk with
    | false => simp [Channel.CommitConfig, hp]
    | true =>
      cases hc : e.configOk with
      | false => simp [Channel.CommitConfig, hp, hc]
      | true =>
        cases hst : c.vault.statusOf (configTxID e.config.sequence) with
        | valid => simp [Channel.CommitConfig, hp, hc, hst]
        | unknown =>
          cases hb : buildBundle ext c e.config with
          | error msg => simp [Channel.CommitConfig, hp, hc, hst, hb]
          | ok b =>
            rcases hcc : c.commitConfig (configTxID e.config.sequence) bn
                e.config.sequence raw with ⟨c2, err⟩
            cases err with
            | none =>
              refine Or.inr ⟨b, ?_⟩
              simp [Channel.CommitConfig, hp, hc, hst, hb, hcc, applyBundle_resources]
            | some msg =>
              refine Or.inl ?_
              have : c2.resources = c.resources := by
                have := commitConfig_resources c (configTxID e.config.sequence) bn
                  e.config.sequence raw
                rw [hcc] at this
                exact this
              simp [Channel.CommitConfig, hp, hc, hst, hb, hcc, this]
        | other code => simp [Channel.CommitConfig, hp, hc, hst]

/-- C8 counterexample: a freshly constructed channel (reachable state: it is
exactly what `ReloadConfigTransactions` starts from, and the source checks
`c.Resources() == nil` on it) yields an absent bundle from `Resources()`,
refuting "Resources() never yields an absent bundle at any point in the
channel's lifetime". -/
theorem resources_absent_at_startup :
    (Channel.Resources chanInit).isSome = false := rfl

/-- C8 amended: a channel owns at most one active bundle — `Resources()`
returns exactly the single current bundle field, which is absent only before
the first activation: activation installs a whole newly built bundle, and once
a bundle is active every `CommitConfig` and every reload step leaves some
whole bundle active (readers see the old or the new bundle, never a partial
or cleared one). -/
theorem resources_old_or_new_bundle :
    (∀ c : Channel, Channel.Resources c = c.resources) ∧
    (∀ (c : Channel) (b : Bundle), (c.applyBundle b).resources = some b) ∧
    (∀ (ext : Ext) (c : Channel) (bn : Nat) (raw : StoredBytes)
        (env : Option Envelope), c.resources.isSome = true →
      (Channel.CommitConfig ext c bn raw env).fst.resources.isSome = true) ∧
    (∀ (ext : Ext) (c : Channel) (s fuel : Nat), c.resources.isSome = true →
      (reloadLoop ext c s fuel).fst.resources.isSome = true) := by
  refine ⟨fun c => rfl, applyBundle_resources, ?_, ?_⟩
  · intro ext c bn raw env h
    rcases commit_resources_old_or_new ext c bn raw env with hsame | ⟨b, hb⟩
    · rw [hsame]; exact h
    · rw [hb]; rfl
  · intro ext c s fuel
    induction fuel generalizing c s with
    | zero => intro h; simpa [reloadLoop] using h
    | succ f ih =>
      intro h
      simp only [reloadLoop]
      cases hst : c.vault.statusOf (configTxID s) with
      | valid =>
        cases hgs : c.vault.getState peerNamespace (configKey s) with
        | none => simpa using h
        | some sb =>
          cases sb with
          | garbage => simpa using h
          | env e =>
            cases hp : e.payloadOk with
            | false => simpa [hp] using h
            | true =>
              cases hc : e.configOk with
              | false => simpa [hp, hc] using h
              | true =>
                cases hb : buildBundle ext c e.config with
                | error msg => simpa [hp, hc, hb] using h
                | ok b =>
                  simp only [hp, hc, hb]
                  exact ih (c.applyBundle b) (s + 1)
                    (by rw [applyBundle_resources]; rfl)
      | unknown => simpa using h
      | other code => simpa using h

theorem resources_old_or_new_bundle_witness :
    ((Channel.CommitConfig extOK chanWithBundle 3 (StoredBytes.env (mkEnv cfg2))
        (some (mkEnv cfg2))).fst.resources.isSome = true) ∧
    ((reloadLoop extOK chanWithBundle 1 4).fst.resources.isSome = true) :=
  ⟨resources_old_or_new_bundle.2.2.1 extOK chanWithBundle 3
      (StoredBytes.env (mkEnv cfg2)) (some (mkEnv cfg2)) rfl,
   resources_old_or_new_bundle.2.2.2 extOK chanWithBundle 1 4 rfl⟩

/-- A bundle with a single orderer endpoint, used to exhibit the applyBundle
trace. -/
def bundleOrd1 : Bundle :=
  ⟨"testchannel", cfg1, some ⟨none⟩, ⟨none⟩,
   some ⟨[⟨"ordorg", "ordmsp", [[7]], [], ["orderer0:7050"]⟩]⟩⟩

/-- C9 counterexample: on a bundle with one orderer endpoint the trace of
`applyBundle` places the `setConfigOrderers` push at index 2 and the release
of the resources write lock at index 3 — the `defer c.lock.Unlock()` runs only
on return — so the claim that the lock is released before the endpoint push is
false. -/
theorem apply_bundle_unlock_before_push_refuted :
    ¬ (∃ i j, unlockIdx (applyBundleTrace bundleOrd1) = some i ∧
       pushIdx (applyBundleTrace bundleOrd1) = some j ∧ i < j) := by
  rintro ⟨i, j, hu, hp, hij⟩
  have hu3 : unlockIdx (applyBundleTrace bundleOrd1) = some 3 := by decide
  have hp2 : pushIdx (applyBundleTrace bundleOrd1) = some 2 := by decide
  rw [hu3] at hu
  rw [hp2] at hp
  injection hu with hu'
  injection hp with hp'
  omega

/-- C9 amended: `applyBundle` exclusive-write-locks the resources field,
replaces it, then — still holding the lock — inspects the bundle for
ordering-node configuration and pushes the endpoint list (or does nothing when
there is none); the write lock is released only on return, after the push. -/
theorem apply_bundle_push_inside_lock (b : Bundle) :
    ∃ ev, applyBundleTrace b =
      [LockEvent.lockResW, LockEvent.writeResources, ev, LockEvent.unlockResW] ∧
      (ev = LockEvent.noPush ∨ ∃ n, ev = LockEvent.pushOrderers n ∧ 0 < n) := by
  unfold applyBundleTrace
  cases hoc : b.ordererConfig with
  | none => exact ⟨LockEvent.noPush, rfl, Or.inl rfl⟩
  | some orderers =>
    by_cases h : (newOrderersOf orderers).length ≠ 0
    · exact ⟨LockEvent.pushOrderers (newOrderersOf orderers).length,
        by simp [h], Or.inr ⟨_, rfl, by omega⟩⟩
    · exact ⟨LockEvent.noPush, by simp [h], Or.inl rfl⟩

/-- C10.  The capability check runs only on the successor path: a genesis
commit (no active bundle) activates the newly built bundle even when
`capabilitiesSupported` rejects it, a genesis reload step does the same, while
on the successor path a bundle failing the capability check is never activated
and the call errors. -/
theorem genesis_skips_capability_check :
    (∀ (ext : Ext) (c : Channel) (bn : Nat) (raw : StoredBytes) (e : Envelope)
        (b : Bundle) (msg : String),
      c.resources = none → e.payloadOk = true → e.configOk = true →
      c.vault.statusOf (configTxID e.config.sequence) = VStatus.unknown →
      c.vault.commitOK = true →
      ext.newBundle c.name e.config = .ok b →
      capabilitiesSupported b = .error msg →
      (Channel.CommitConfig ext c bn raw (some e)).snd = none ∧
      (Channel.CommitConfig ext c bn raw (some e)).fst.resources = some b) ∧
    (∀ (ext : Ext) (c : Channel) (s fuel : Nat) (e : Envelope) (b : Bundle)
        (msg : String),
      c.resources = none →
      c.vault.statusOf (configTxID s) = VStatus.valid →
      c.vault.getState peerNamespace (configKey s) = some (.env e) →
      e.payloadOk = true → e.configOk = true →
      ext.newBundle c.name e.config = .ok b →
      capabilitiesSupported b = .error msg →
      reloadLoop ext c s (fuel + 1) = reloadLoop ext (c.applyBundle b) (s + 1) fuel) ∧
    (∀ (ext : Ext) (c : Channel) (bn : Nat) (raw : StoredBytes) (e : Envelope)
        (pred b : Bundle) (msg : String),
      c.resources = some pred → e.payloadOk = true → e.configOk = true →
      c.vault.statusOf (configTxID e.config.sequence) = VStatus.unknown →
      ext.validate pred e.config = .ok () →
      ext.newBundle pred.channelID e.config = .ok b →
      capabilitiesSupported b = .error msg →
      ((Channel.CommitConfig ext c bn raw (some e)).snd).isSome = true ∧
      (Channel.CommitConfig ext c bn raw (some e)).fst = c) := by
  refine ⟨?_, ?_, ?_⟩
  · intro ext c bn raw e b msg hres hp hc hst hco hnb hcap
    have hbb : buildBundle ext c e.config = .ok b := by
      simp [buildBundle, Channel.Resources, hres, hnb]
    have hcc := commitConfig_ok_eq c (configTxID e.config.sequence) bn
      e.config.sequence raw hco
    constructor
    · simp [Channel.CommitConfig, hp, hc, hst, hbb, hcc]
    · simp [Channel.CommitConfig, hp, hc, hst, hbb, hcc, applyBundle_resources]
  · intro ext c s fuel e b msg hres hst hgs hp hc hnb hcap
    have hbb : buildBundle ext c e.config = .ok b := by
      simp [buildBundle, Channel.Resources, hres, hnb]
    conv_lhs => rw [reloadLoop]
    simp [hst, hgs, hp, hc, hbb]
  · intro ext c bn raw e pred b msg hres hp hc hst hval hnb hcap
    have hbb : buildBundle ext c e.config = .error msg := by
      simp [buildBundle, Channel.Resources, hres, hval, hnb, hcap]
    constructor
    · simp [Channel.CommitConfig, hp, hc, hst, hbb]
    · simp [Channel.CommitConfig, hp, hc, hst, hbb]

/-- A bundle builder returning bundles with no application config section. -/
def extNoApp : Ext :=
  ⟨fun id cfg => .ok ⟨id, cfg, none, ⟨none⟩, none⟩, fun _ _ => .ok ()⟩

theorem genesis_skips_capability_check_witness :
    ((Channel.CommitConfig extNoApp chanInit 3 (StoredBytes.env (mkEnv cfg1))
        (some (mkEnv cfg1))).snd = none) ∧
    ((Channel.CommitConfig extNoApp chanInit 3 (StoredBytes.env (mkEnv cfg1))
        (some (mkEnv cfg1))).fst.resources
      = some ⟨"testchannel", cfg1, none, ⟨none⟩, none⟩) :=
  genesis_skips_capability_check.1 extNoApp chanInit 3
    (StoredBytes.env (mkEnv cfg1)) (mkEnv cfg1)
    ⟨"testchannel", cfg1, none, ⟨none⟩, none⟩
    ("channel " ++ "testchannel" ++ " does not have application config so is incompatible")
    rfl rfl rfl (by decide) rfl rfl rfl

/-! Machinery for the reload/commit refinement (C1) and crash recovery (C4). -/

theorem lookupStatus_cons_self (l : List (String × VStatus)) (t : String)
    (s : VStatus) : lookupStatus ((t, s) :: l) t = s := by
  simp [lookupStatus]

theorem lookupStatus_cons_ne (l : List (String × VStatus)) (t t' : String)
    (s : VStatus) (h : t ≠ t') :
    lookupStatus ((t, s) :: l) t' = lookupStatus l t' := by
  simp [lookupStatus, h]

theorem lookupKV_cons_self (l : List KVEntry) (ns k : String) (v : StoredBytes) :
    lookupKV (⟨ns, k, v⟩ :: l) ns k = some v := by
  simp [lookupKV]

theorem lookupKV_cons_ne (l : List KVEntry) (e : KVEntry) (ns k : String)
    (h : ¬(e.ns = ns ∧ e.key = k)) :
    lookupKV (e :: l) ns k = lookupKV l ns k := by
  simp [lookupKV, h]

/-- Congruence: `buildBundle` reads the channel only through its name and active
resources. -/
theorem buildBundle_congr (ext : Ext) {c d : Channel} (ctx : Config)
    (hname : d.name = c.name) (hres : d.resources = c.resources) :
    buildBundle ext d ctx = buildBundle ext c ctx := by
  unfold buildBundle
  rw [Channel.Resources, Channel.Resources, hres, hname]

/-- Characterization of a successful `CommitConfig` of a well-formed envelope:
the staged entry is committed under the sequence-derived key, the derived
transaction id becomes `Valid`, and the built bundle is activated. -/
theorem CommitConfig_mkEnv_ok (ext : Ext) (c : Channel) (cfg : Config)
    (b : Bundle) (bn : Nat)
    (hst : c.vault.statusOf (configTxID cfg.sequence) = VStatus.unknown)
    (hbb : buildBundle ext c cfg = .ok b)
    (hco : c.vault.commitOK = true) :
    Channel.CommitConfig ext c bn (.env (mkEnv cfg)) (some (mkEnv cfg)) =
      (Channel.applyBundle
        { c with vault := { c.vault with
            kv := ⟨peerNamespace, configKey cfg.sequence,
              .env (mkEnv cfg)⟩ :: c.vault.kv
            statuses := (configTxID cfg.sequence, VStatus.valid) :: c.vault.statuses
            pending := removePending c.vault.pending (configTxID cfg.sequence) } }
        b, none) := by
  have hcc := commitConfig_ok_eq c (configTxID cfg.sequence) bn cfg.sequence
    (.env (mkEnv cfg)) hco
  simp only [mkEnv] at hcc
  simp [Channel.CommitConfig, mkEnv, hst, hbb, hcc, configKey]

/-- A successful `CommitConfig` of a well-formed envelope on an `Unknown`
transaction id implies the ledger commit works and the bundle was built. -/
theorem CommitConfig_mkEnv_ok_inv (ext : Ext) (c : Channel) (cfg : Config) (bn : Nat)
    (hst : c.vault.statusOf (configTxID cfg.sequence) = VStatus.unknown)
    (h : (Channel.CommitConfig ext c bn (.env (mkEnv cfg)) (some (mkEnv cfg))).snd
      = none) :
    c.vault.commitOK = true ∧ ∃ b, buildBundle ext c cfg = .ok b := by
  cases hbb : buildBundle ext c cfg with
  | error msg =>
    exfalso
    simp [Channel.CommitConfig, mkEnv, hst, hbb] at h
  | ok b =>
    cases hco : c.vault.commitOK with
    | false =>
      exfalso
      have hcc := commitConfig_fail_eq c (configTxID cfg.sequence) bn cfg.sequence
        (.env (mkEnv cfg)) hco
      simp only [mkEnv] at hcc
      simp [Channel.CommitConfig, mkEnv, hst, hbb, hcc] at h
    | true => exact ⟨rfl, ⟨b, rfl⟩⟩

/-- A single commit leaves the status of every other transaction id
unchanged. -/
theorem CommitConfig_statusOf_ne (ext : Ext) (c : Channel) (cfg : Config)
    (bn : Nat) (t : String) (h : t ≠ configTxID cfg.sequence) :
    (Channel.CommitConfig ext c bn (.env (mkEnv cfg))
      (some (mkEnv cfg))).fst.vault.statusOf t = c.vault.statusOf t := by
  cases hst : c.vault.statusOf (configTxID cfg.sequence) with
  | valid => simp [Channel.CommitConfig, mkEnv, hst]
  | other code => simp [Channel.CommitConfig, mkEnv, hst]
  | unknown =>
    cases hbb : buildBundle ext c cfg with
    | error msg => simp [Channel.CommitConfig, mkEnv, hst, hbb]
    | ok b =>
      cases hco : c.vault.commitOK with
      | true =>
        rw [CommitConfig_mkEnv_ok ext c cfg b bn hst hbb hco]
        show (Channel.applyBundle _ b).vault.statusOf t = _
        rw [applyBundle_vault]
        exact lookupStatus_cons_ne _ _ _ _ (Ne.symm h)
      | false =>
        have hcc := commitConfig_fail_eq c (configTxID cfg.sequence) bn cfg.sequence
          (.env (mkEnv cfg)) hco
        simp only [mkEnv] at hcc
        have hst2 : lookupStatus c.vault.statuses (configTxID cfg.sequence)
            = VStatus.unknown := hst
        simp [Channel.CommitConfig, mkEnv, hst2, hbb, hcc, Vault.statusOf,
          discardTx_statuses, Vault.setState, Vault.newRWSet]

/-- A single commit leaves the stored value at every other sequence-derived
key unchanged. -/
theorem CommitConfig_getState_ne (ext : Ext) (c : Channel) (cfg : Config)
    (bn : Nat) (k : String) (h : k ≠ configKey cfg.sequence) :
    (Channel.CommitConfig ext c bn (.env (mkEnv cfg))
      (some (mkEnv cfg))).fst.vault.getState peerNamespace k
      = c.vault.getState peerNamespace k := by
  cases hst : c.vault.statusOf (configTxID cfg.sequence) with
  | valid => simp [Channel.CommitConfig, mkEnv, hst]
  | other code => simp [Channel.CommitConfig, mkEnv, hst]
  | unknown =>
    cases hbb : buildBundle ext c cfg with
    | error msg => simp [Channel.CommitConfig, mkEnv, hst, hbb]
    | ok b =>
      cases hco : c.vault.commitOK with
      | true =>
        rw [CommitConfig_mkEnv_ok ext c cfg b bn hst hbb hco]
        show (Channel.applyBundle _ b).vault.getState peerNamespace k = _
        rw [applyBundle_vault]
        exact lookupKV_cons_ne _ _ _ _ (by
          rintro ⟨-, hk⟩
          exact h hk.symm)
      | false =>
        have hcc := commitConfig_fail_eq c (configTxID cfg.sequence) bn cfg.sequence
          (.env (mkEnv cfg)) hco
        simp only [mkEnv] at hcc
        have hst2 : lookupStatus c.vault.statuses (configTxID cfg.sequence)
            = VStatus.unknown := hst
        simp [Channel.CommitConfig, mkEnv, hst, hst2, hbb, hcc, Vault.getState,
          discardTx_kv, Vault.setState, Vault.newRWSet]

/-- Running `commitMany` over configurations avoiding a transaction id leaves its
status unchanged, whether or not the commits succeed. -/
theorem commitMany_statusOf_ne (ext : Ext) (cs : List Config) (c : Channel)
    (t : String)
    (h : ∀ i (hi : i < cs.length), t ≠ configTxID (cs.get ⟨i, hi⟩).sequence) :
    (commitMany ext c cs).fst.vault.statusOf t = c.vault.statusOf t := by
  induction cs generalizing c with
  | nil => rfl
  | cons cfg rest ih =>
    have h0 : t ≠ configTxID cfg.sequence := h 0 (by simp)
    have hstep := CommitConfig_statusOf_ne ext c cfg 0 t h0
    simp only [commitMany]
    rcases hr : Channel.CommitConfig ext c 0 (.env (mkEnv cfg)) (some (mkEnv cfg))
      with ⟨c1, err⟩
    rw [hr] at hstep
    cases err with
    | none =>
      rw [ih c1 (fun i hi => h (i + 1) (by simpa using Nat.succ_lt_succ hi))]
      exact hstep
    | some e => exact hstep

/-- Running `commitMany` over configurations avoiding a key leaves its stored value
unchanged. -/
theorem commitMany_getState_ne (ext : Ext) (cs : List Config) (c : Channel)
    (k : String)
    (h : ∀ i (hi : i < cs.length), k ≠ configKey (cs.get ⟨i, hi⟩).sequence) :
    (commitMany ext c cs).fst.vault.getState peerNamespace k
      = c.vault.getState peerNamespace k := by
  induction cs generalizing c with
  | nil => rfl
  | cons cfg rest ih =>
    have h0 : k ≠ configKey cfg.sequence := h 0 (by simp)
    have hstep := CommitConfig_getState_ne ext c cfg 0 k h0
    simp only [commitMany]
    rcases hr : Channel.CommitConfig ext c 0 (.env (mkEnv cfg)) (some (mkEnv cfg))
      with ⟨c1, err⟩
    rw [hr] at hstep
    cases err with
    | none =>
      rw [ih c1 (fun i hi => h (i + 1) (by simpa using Nat.succ_lt_succ hi))]
      exact hstep
    | some e => exact hstep

/-- Reload simulates a successful commit run: starting from a channel sharing
the commit-side channel's name and active bundle but holding the vault that
the whole run produced, the reload loop replays the remaining configurations
step for step and ends, without error, on the same active bundle. -/
theorem reload_simulates_commits (ext : Ext) :
    ∀ (cs : List Config) (c d : Channel) (s fuel : Nat),
    d.name = c.name → d.resources = c.resources →
    d.vault = (commitMany ext c cs).fst.vault →
    (∀ i (hi : i < cs.length), (cs.get ⟨i, hi⟩).sequence = s + i) →
    (∀ i, i ≤ cs.length → c.vault.statusOf (configTxID (s + i)) = VStatus.unknown) →
    cs.length + 1 ≤ fuel →
    (commitMany ext c cs).snd = none →
    (reloadLoop ext d s fuel).fst.resources = (commitMany ext c cs).fst.resources ∧
    (reloadLoop ext d s fuel).snd = none := by
  intro cs
  induction cs with
  | nil =>
    intro c d s fuel hname hres hvault hseq hunk hfuel hok
    obtain ⟨f, rfl⟩ : ∃ f, fuel = f + 1 := ⟨fuel - 1, by omega⟩
    simp only [commitMany] at hvault ⊢
    have hst : d.vault.statusOf (configTxID s) = VStatus.unknown := by
      rw [hvault]
      simpa using hunk 0 (by omega)
    simp only [reloadLoop, hst]
    exact ⟨hres, trivial⟩
  | cons cfg rest ih =>
    intro c d s fuel hname hres hvault hseq hunk hfuel hok
    obtain ⟨f, rfl⟩ : ∃ f, fuel = f + 1 := ⟨fuel - 1, by omega⟩
    have hseq0 : cfg.sequence = s := by simpa using hseq 0 (by simp)
    have hst0 : c.vault.statusOf (configTxID s) = VStatus.unknown := by
      simpa using hunk 0 (by omega)
    have hst0' : c.vault.statusOf (configTxID cfg.sequence) = VStatus.unknown := by
      rw [hseq0]; exact hst0
    -- the first commit must have succeeded
    have hr1 : (Channel.CommitConfig ext c 0 (.env (mkEnv cfg))
        (some (mkEnv cfg))).snd = none := by
      rcases hr : Channel.CommitConfig ext c 0 (.env (mkEnv cfg)) (some (mkEnv cfg))
        with ⟨c1, err⟩
      cases err with
      | none => rfl
      | some e =>
        exfalso
        simp only [commitMany, hr] at hok
        exact Option.some_ne_none e hok
    obtain ⟨hco, b, hbb⟩ := CommitConfig_mkEnv_ok_inv ext c cfg 0 hst0' hr1
    have hstep := CommitConfig_mkEnv_ok ext c cfg b 0 hst0' hbb hco
    -- names for the commit-side states
    set cMid : Channel :=
      { c with vault := { c.vault with
          kv := ⟨peerNamespace, configKey cfg.sequence,
            .env (mkEnv cfg)⟩ :: c.vault.kv
          statuses := (configTxID cfg.sequence, VStatus.valid) :: c.vault.statuses
          pending := removePending c.vault.pending (configTxID cfg.sequence) } }
      with hcMid
    have hcm : commitMany ext c (cfg :: rest)
        = commitMany ext (cMid.applyBundle b) rest := by
      simp only [commitMany, hstep]
    rw [hcm] at hvault hok ⊢
    -- reload-side facts at sequence s
    have hrest_ne : ∀ i (hi : i < rest.length),
        configTxID s ≠ configTxID ((rest.get ⟨i, hi⟩).sequence) := by
      intro i hi heq
      have hs : (rest.get ⟨i, hi⟩).sequence = s + (i + 1) := by
        have := hseq (i + 1) (by simpa using Nat.succ_lt_succ hi)
        simpa using this
      have := configTxID_injective heq
      omega
    have hkey_ne : ∀ i (hi : i < rest.length),
        configKey s ≠ configKey ((rest.get ⟨i, hi⟩).sequence) := by
      intro i hi heq
      have hs : (rest.get ⟨i, hi⟩).sequence = s + (i + 1) := by
        have := hseq (i + 1) (by simpa using Nat.succ_lt_succ hi)
        simpa using this
      have := configKey_injective heq
      omega
    have hstatus_d : d.vault.statusOf (configTxID s) = VStatus.valid := by
      rw [hvault, commitMany_statusOf_ne ext rest (cMid.applyBundle b)
        (configTxID s) hrest_ne, applyBundle_vault]
      show lookupStatus ((configTxID cfg.sequence, VStatus.valid)
        :: c.vault.statuses) (configTxID s) = VStatus.valid
      rw [hseq0]
      exact lookupStatus_cons_self _ _ _
    have hget_d : d.vault.getState peerNamespace (configKey s)
        = some (.env (mkEnv cfg)) := by
      rw [hvault, commitMany_getState_ne ext rest (cMid.applyBundle b)
        (configKey s) hkey_ne, applyBundle_vault]
      show lookupKV (⟨peerNamespace, configKey cfg.sequence, .env (mkEnv cfg)⟩
        :: c.vault.kv) peerNamespace (configKey s) = some (.env (mkEnv cfg))
      rw [hseq0]
      exact lookupKV_cons_self _ _ _ _
    have hbb_d : buildBundle ext d cfg = .ok b := by
      rw [buildBundle_congr ext cfg hname hres]
      exact hbb
    -- one reload step
    have hreload_step : reloadLoop ext d s (f + 1)
        = reloadLoop ext (d.applyBundle b) (s + 1) f := by
      conv_lhs => rw [reloadLoop]
      simp [hstatus_d, hget_d, mkEnv, hbb_d]
    rw [hreload_step]
    -- inductive step
    refine ih (cMid.applyBundle b) (d.applyBundle b) (s + 1) f ?_ ?_ ?_ ?_ ?_ ?_ hok
    · rw [applyBundle_name, applyBundle_name, hname, hcMid]
    · rw [applyBundle_resources, applyBundle_resources]
    · rw [applyBundle_vault, hvault]
    · intro i hi
      have := hseq (i + 1) (by simpa using Nat.succ_lt_succ hi)
      simpa [Nat.add_assoc, Nat.add_comm, Nat.add_left_comm] using this
    · intro i hi
      rw [applyBundle_vault]
      show lookupStatus ((configTxID cfg.sequence, VStatus.valid)
        :: c.vault.statuses) (configTxID (s + 1 + i)) = VStatus.unknown
      rw [lookupStatus_cons_ne]
      · have := hunk (i + 1) (by simpa using Nat.succ_le_succ hi)
        show lookupStatus c.vault.statuses (configTxID (s + 1 + i)) = VStatus.unknown
        have harith : s + (i + 1) = s + 1 + i := by omega
        rw [harith] at this
        exact this
      · intro heq
        have := configTxID_injective heq
        omega
    · simpa using hfuel

/-- C1.  Given the store produced by N successful sequential `CommitConfig`
calls on configurations with embedded sequences 1..N (a store in which
`config-1` .. `config-N` are `Valid` and `config-(N+1)` is `Unknown`),
`ReloadConfigTransactions` on a fresh channel over that store reconstructs
exactly the active bundle the live commits produced, and its loop halts at
the first `Unknown` status — after processing exactly the N stored entries,
with any fuel of at least N+1 iterations — without error. -/
theorem reload_reconstructs_commits (ext : Ext) (name : String)
    (commitOK discardOK : Bool) (cs : List Config) (fuel : Nat)
    (hseq : ∀ i (hi : i < cs.length), (cs.get ⟨i, hi⟩).sequence = 1 + i)
    (hfuel : cs.length + 1 ≤ fuel)
    (hok : (commitMany ext (mkChannel name (emptyVault commitOK discardOK)) cs).snd
      = none) :
    (Channel.ReloadConfigTransactions ext
      (mkChannel name
        (commitMany ext (mkChannel name (emptyVault commitOK discardOK))
          cs).fst.vault) fuel).fst.resources
      = (commitMany ext (mkChannel name (emptyVault commitOK discardOK))
          cs).fst.resources ∧
    (Channel.ReloadConfigTransactions ext
      (mkChannel name
        (commitMany ext (mkChannel name (emptyVault commitOK discardOK))
          cs).fst.vault) fuel).snd = none :=
  reload_simulates_commits ext cs
    (mkChannel name (emptyVault commitOK discardOK))
    (mkChannel name
      (commitMany ext (mkChannel name (emptyVault commitOK discardOK)) cs).fst.vault)
    1 fuel rfl rfl rfl hseq (fun _ _ => rfl) hfuel hok

theorem reload_reconstructs_commits_witness :
    (Channel.ReloadConfigTransactions extOK
      (mkChannel ("testchannel")
        (commitMany extOK (mkChannel ("testchannel") (emptyVault true true))
          [cfg1, cfg2]).fst.vault) 3).fst.resources
      = (commitMany extOK (mkChannel ("testchannel") (emptyVault true true))
          [cfg1, cfg2]).fst.resources ∧
    (Channel.ReloadConfigTransactions extOK
      (mkChannel ("testchannel")
        (commitMany extOK (mkChannel ("testchannel") (emptyVault true true))
          [cfg1, cfg2]).fst.vault) 3).snd = none :=
  reload_reconstructs_commits extOK ("testchannel") true true [cfg1, cfg2] 3
    (by decide) (by decide) (by decide)

theorem commitMany_append (ext : Ext) (cs ds : List Config) (c : Channel) :
    commitMany ext c (cs ++ ds) =
      (match commitMany ext c cs with
       | (c1, none) => commitMany ext c1 ds
       | (c1, some e) => (c1, some e)) := by
  induction cs generalizing c with
  | nil => rfl
  | cons cfg rest ih =>
    simp only [List.cons_append, commitMany]
    rcases hr : Channel.CommitConfig ext c 0 (.env (mkEnv cfg)) (some (mkEnv cfg))
      with ⟨c1, err⟩
    cases err with
    | none => exact ih c1
    | some e => rfl

theorem commitMany_single (ext : Ext) (c : Channel) (cfg : Config) :
    (commitMany ext c [cfg]).fst
      = (Channel.CommitConfig ext c 0 (.env (mkEnv cfg)) (some (mkEnv cfg))).fst := by
  simp only [commitMany]
  rcases hr : Channel.CommitConfig ext c 0 (.env (mkEnv cfg)) (some (mkEnv cfg))
    with ⟨c1, err⟩
  cases err <;> simp

/-- The crash-interrupted commit differs from the completed one only in the
skipped activation: the resulting vault and the error outcome coincide. -/
theorem crash_vault_eq (ext : Ext) (c : Channel) (bn : Nat) (raw : StoredBytes)
    (env : Option Envelope) :
    (Channel.CommitConfigCrashBeforeApply ext c bn raw env).fst.vault
      = (Channel.CommitConfig ext c bn raw env).fst.vault ∧
    (Channel.CommitConfigCrashBeforeApply ext c bn raw env).snd
      = (Channel.CommitConfig ext c bn raw env).snd := by
  cases env with
  | none => exact ⟨rfl, rfl⟩
  | some e =>
    cases hp : e.payloadOk with
    | false =>
      simp [Channel.CommitConfigCrashBeforeApply, Channel.CommitConfig, hp]
    | true =>
      cases hc : e.configOk with
      | false =>
        simp [Channel.CommitConfigCrashBeforeApply, Channel.CommitConfig, hp, hc]
      | true =>
        cases hst : c.vault.statusOf (configTxID e.config.sequence) with
        | valid =>
          simp [Channel.CommitConfigCrashBeforeApply, Channel.CommitConfig, hp, hc, hst]
        | other code =>
          simp [Channel.CommitConfigCrashBeforeApply, Channel.CommitConfig, hp, hc, hst]
        | unknown =>
          cases hbb : buildBundle ext c e.config with
          | error msg =>
            simp [Channel.CommitConfigCrashBeforeApply, Channel.CommitConfig,
              hp, hc, hst, hbb]
          | ok b =>
            rcases hcc : c.commitConfig (configTxID e.config.sequence) bn
                e.config.sequence raw with ⟨c2, err⟩
            cases err with
            | none =>
              refine ⟨?_, ?_⟩ <;>
                simp [Channel.CommitConfigCrashBeforeApply, Channel.CommitConfig,
                  hp, hc, hst, hbb, hcc, applyBundle_vault]
            | some msg =>
              refine ⟨?_, ?_⟩ <;>
                simp [Channel.CommitConfigCrashBeforeApply, Channel.CommitConfig,
                  hp, hc, hst, hbb, hcc]

/-- C4.  Activation strictly follows persistence: when the ledger commit
fails, `CommitConfig` errors and neither the active bundle nor the pushed
orderer lists change — the new bundle is never activated; and a crash
injected between successful persistence and activation is recovered by
reload: a fresh channel reloading the crashed store ends, without error, on
exactly the active bundle a completed activation would have produced. -/
theorem persist_before_activate (ext : Ext) :
    (∀ (c : Channel) (bn : Nat) (raw : StoredBytes) (e : Envelope) (b : Bundle),
      e.payloadOk = true → e.configOk = true →
      c.vault.statusOf (configTxID e.config.sequence) = VStatus.unknown →
      buildBundle ext c e.config = .ok b →
      c.vault.commitOK = false →
      ((Channel.CommitConfig ext c bn raw (some e)).snd).isSome = true ∧
      (Channel.CommitConfig ext c bn raw (some e)).fst.resources = c.resources ∧
      (Channel.CommitConfig ext c bn raw (some e)).fst.pushedOrderers
        = c.pushedOrderers) ∧
    (∀ (name : String) (discardOK : Bool) (cs : List Config) (cfg : Config)
        (fuel : Nat),
      (∀ i (hi : i < (cs ++ [cfg]).length),
        ((cs ++ [cfg]).get ⟨i, hi⟩).sequence = 1 + i) →
      (cs ++ [cfg]).length + 1 ≤ fuel →
      (commitMany ext (mkChannel name (emptyVault true discardOK))
        (cs ++ [cfg])).snd = none →
      (Channel.ReloadConfigTransactions ext
        (mkChannel name
          (Channel.CommitConfigCrashBeforeApply ext
            (commitMany ext (mkChannel name (emptyVault true discardOK)) cs).fst
            0 (.env (mkEnv cfg)) (some (mkEnv cfg))).fst.vault)
        fuel).fst.resources
        = (commitMany ext (mkChannel name (emptyVault true discardOK))
            (cs ++ [cfg])).fst.resources ∧
      (Channel.ReloadConfigTransactions ext
        (mkChannel name
          (Channel.CommitConfigCrashBeforeApply ext
            (commitMany ext (mkChannel name (emptyVault true discardOK)) cs).fst
            0 (.env (mkEnv cfg)) (some (mkEnv cfg))).fst.vault)
        fuel).snd = none) := by
  constructor
  · intro c bn raw e b hp hc hst hbb hco
    have hcc := commitConfig_fail_eq c (configTxID e.config.sequence) bn
      e.config.sequence raw hco
    refine ⟨?_, ?_, ?_⟩ <;> simp [Channel.CommitConfig, hp, hc, hst, hbb, hcc]
  · intro name discardOK cs cfg fuel hseq hfuel hok
    have happ := commitMany_append ext cs [cfg]
      (mkChannel name (emptyVault true discardOK))
    rcases hpre : commitMany ext (mkChannel name (emptyVault true discardOK)) cs
      with ⟨cN, errN⟩
    cases errN with
    | some e =>
      exfalso
      rw [hpre] at happ
      rw [happ] at hok
      exact Option.some_ne_none e hok
    | none =>
      rw [hpre] at happ
      have happ2 : commitMany ext (mkChannel name (emptyVault true discardOK))
          (cs ++ [cfg]) = commitMany ext cN [cfg] := happ
      have hvault_eq : (Channel.CommitConfigCrashBeforeApply ext cN 0
          (.env (mkEnv cfg)) (some (mkEnv cfg))).fst.vault
          = (commitMany ext (mkChannel name (emptyVault true discardOK))
              (cs ++ [cfg])).fst.vault := by
        rw [(crash_vault_eq ext cN 0 (.env (mkEnv cfg)) (some (mkEnv cfg))).1,
          happ2, commitMany_single]
      exact reload_simulates_commits ext (cs ++ [cfg])
        (mkChannel name (emptyVault true discardOK))
        (mkChannel name
          (Channel.CommitConfigCrashBeforeApply ext cN 0
            (.env (mkEnv cfg)) (some (mkEnv cfg))).fst.vault)
        1 fuel rfl rfl hvault_eq hseq (fun _ _ => rfl) hfuel hok

theorem persist_before_activate_witness :
    (((Channel.CommitConfig extOK chanCommitFails 4 (StoredBytes.env (mkEnv cfg2))
        (some (mkEnv cfg2))).snd).isSome = true ∧
      (Channel.CommitConfig extOK chanCommitFails 4 (StoredBytes.env (mkEnv cfg2))
        (some (mkEnv cfg2))).fst.resources = chanCommitFails.resources ∧
      (Channel.CommitConfig extOK chanCommitFails 4 (StoredBytes.env (mkEnv cfg2))
        (some (mkEnv cfg2))).fst.pushedOrderers = chanCommitFails.pushedOrderers) ∧
    ((Channel.ReloadConfigTransactions extOK
        (mkChannel ("testchannel")
          (Channel.CommitConfigCrashBeforeApply extOK
            (commitMany extOK (mkChannel ("testchannel") (emptyVault true true))
              [cfg1]).fst
            0 (.env (mkEnv cfg2)) (some (mkEnv cfg2))).fst.vault)
        3).fst.resources
        = (commitMany extOK (mkChannel ("testchannel") (emptyVault true true))
            ([cfg1] ++ [cfg2])).fst.resources ∧
      (Channel.ReloadConfigTransactions extOK
        (mkChannel ("testchannel")
          (Channel.CommitConfigCrashBeforeApply extOK
            (commitMany extOK (mkChannel ("testchannel") (emptyVault true true))
              [cfg1]).fst
            0 (.env (mkEnv cfg2)) (some (mkEnv cfg2))).fst.vault)
        3).snd = none) :=
  ⟨(persist_before_activate extOK).1 chanCommitFails 4
      (StoredBytes.env (mkEnv cfg2)) (mkEnv cfg2)
      ⟨"testchannel", cfg2, some ⟨none⟩, ⟨none⟩, none⟩ rfl rfl rfl rfl rfl,
   (persist_before_activate extOK).2 ("testchannel") true [cfg1] cfg2 3
      (by decide) (by decide) (by decide)⟩

end TxConfig
